import Mathlib

/-!
Verification of the session lifecycle manager of biochatter-server
(`src/conversation_manager.py`), shallowly embedded in Lean 4.

The embedding models:
  * the module-level session store `conversationsDict` as an association
    list with Python-dict semantics (in-place update, insertion order);
  * `SessionData` with its timestamps and its conversation-engine handle;
  * the conversation engine (biochatter `GptConversation` /
    `AzureGptConversation` / `WasmConversation`) as an opaque `Chatter`
    record whose externally observable effects (api-key setting, message
    appends, queries) are tracked explicitly;
  * the process environment, the module-global `openai.api_key`, and all
    external failure points (engine constructors, retrieval-backend
    connect, engine query) as an `Env` of oracles;
  * the RLock and every externally visible action as an explicit event
    trace, so that lock-discipline claims become statements about traces.

Every operation returns `(result, new-state, trace)`; Python exceptions
are `Except.error`, Python `None` / `False` returns are constructors of
`ChatRet`.
-/

namespace BiochatterServer

/-- Error values standing for Python exceptions (identified by message). -/
abbrev PyErr := String

/-- Token-usage counters returned by the conversation engine (opaque). -/
abbrev Usage := Nat

/-- Externally visible events, used to express lock discipline and
logging behavior as statements about traces. -/
inductive Event where
  | acquire
  | release
  | logError
  | ragConnect
  | engineQuery (text : String)
deriving DecidableEq, Repr

/-- Values stored in a Python model-configuration dict. Float literals
are kept as their decimal text; no arithmetic is ever done on them. -/
inductive PyVal where
  | str (s : String)
  | intV (n : Int)
  | floatLit (s : String)
  | boolV (b : Bool)
deriving DecidableEq, Repr

/-- Incoming chat message, as in `datatypes.Message`. -/
structure Message where
  role : String
  content : String
deriving DecidableEq, Repr

/-- One entry of a conversation engine's message history. -/
inductive ChatterMsg where
  | system (content : String)
  | ai (content : String)
  | user (content : String)
deriving DecidableEq, Repr

/-- Connection arguments for the retrieval backend. -/
structure ConnectionArgs where
  host : String
  port : String
deriving DecidableEq, Repr

/-- The per-request retrieval configuration consumed by `SessionData.chat`. -/
structure RagConfig where
  splitByChar : Bool
  chunkSize : Int
  overlapSize : Int
  resultNum : Int
  connectionArgs : ConnectionArgs
deriving DecidableEq, Repr

/-- Arguments of the `DocumentEmbedder` constructed on every chat call
(the engine's `rag_agent`). -/
structure RagAgentConfig where
  used : Bool
  usePrompt : Bool
  chunkSize : Int
  chunkOverlap : Int
  splitByCharacters : Bool
  nResults : Int
  apiKey : String
  isAzure : Bool
  azureDeployment : Option String
  azureEndpoint : Option String
  connectionArgs : ConnectionArgs
deriving DecidableEq, Repr

/-- The three conversation-engine variants of `initialize_conversation`. -/
inductive ChatterKind where
  | azure
  | gpt
  | wasm
deriving DecidableEq, Repr

/-- Opaque handle to the external conversation engine. `hasChatAttr`
models `hasattr(chatter, "chat")`, which becomes true once
`set_api_key` has installed the underlying client. -/
structure Chatter where
  kind : ChatterKind
  modelName : String
  deployment : Option String
  version : Option String
  baseUrl : Option String
  messages : List ChatterMsg
  ragAgent : Option RagAgentConfig
  hasChatAttr : Bool
  apiKey : Option String
deriving DecidableEq, Repr

/-- Effect of `chatter.set_api_key(key)`: records the key and installs
the client attribute consulted by `hasattr(chatter, "chat")`. -/
def Chatter.set_api_key (c : Chatter) (k : String) : Chatter :=
  { c with apiKey := some k, hasChatAttr := true }

/-- A Python dict of model-configuration fields. -/
abbrev ModelConfig := List (String × PyVal)

/-- The module-level `defaultModelConfig`. -/
def defaultModelConfig : ModelConfig :=
  [("model", .str "gpt-4"),
   ("temperature", .floatLit "0.7"),
   ("max_tokens", .intV 2000),
   ("presence_penalty", .intV 0),
   ("frequency_penalty", .intV 0),
   ("sendMemory", .boolV true),
   ("historyMessageCount", .intV 4),
   ("compressMessageLengthThreshold", .intV 2000)]

/-- The module-level `MAX_AGE` constant: 3 days in milliseconds. -/
def MAX_AGE : Int := 3 * 24 * 3600 * 1000

/-- A session record (`SessionData.__init__`): `createdAt` is the
construction time in milliseconds, `refreshedAt` starts equal to it. -/
structure SessionData where
  sessionId : String
  modelConfig : ModelConfig
  chatter : Option Chatter
  createdAt : Int
  refreshedAt : Int
  maxAge : Int
deriving DecidableEq, Repr

/-- Constructor `SessionData(sessionId, modelConfig, chatter)` at time `now`. -/
def mkSessionData (sessionId : String) (modelConfig : ModelConfig)
    (chatter : Option Chatter) (now : Int) : SessionData :=
  { sessionId := sessionId, modelConfig := modelConfig, chatter := chatter,
    createdAt := now, refreshedAt := now, maxAge := MAX_AGE }

/-- The module-level `conversationsDict`, with Python-dict semantics. -/
abbrev Store := List (String × SessionData)

section DictOps

variable {α : Type}

/-- Python `d[k]` lookup (first matching key). -/
def dictGet : List (String × α) → String → Option α
  | [], _ => none
  | (k1, v1) :: rest, k => if k1 = k then some v1 else dictGet rest k

/-- Python `d[k] = v`: updates the entry in place if the key exists,
otherwise appends at the end of the insertion order. -/
def dictSet : List (String × α) → String → α → List (String × α)
  | [], k, v => [(k, v)]
  | (k1, v1) :: rest, k, v =>
    if k1 = k then (k, v) :: rest else (k1, v1) :: dictSet rest k v

/-- Python `del d[k]` (first matching key). -/
def dictDel : List (String × α) → String → List (String × α)
  | [], _ => []
  | (k1, v1) :: rest, k =>
    if k1 = k then rest else (k1, v1) :: dictDel rest k

/-- Python `k in d`. -/
def dictHas (d : List (String × α)) (k : String) : Bool :=
  (dictGet d k).isSome

/-- Python `d.keys()` in insertion order. -/
def dictKeys (d : List (String × α)) : List String :=
  d.map Prod.fst

end DictOps

/-- Well-formedness of a store: keys are duplicate-free, which holds for
every store actually reachable from the empty `conversationsDict`. -/
def WFStore (st : Store) : Prop := (dictKeys st).Nodup

/-- The process environment and the external collaborators, modelled as
oracles: `os.environ` entries read by `initialize_conversation`, the
module-global `openai.api_key`, `get_azure_embedding_deployment()`, and
the failure behavior of the engine constructors, of the retrieval
backend `connect()`, and of the engine `query`. -/
structure Env where
  apiType : Option String
  deploymentName : Option String
  openaiModel : Option String
  apiVersion : Option String
  azureEndpoint : Option String
  envApiKey : Option String
  openaiApiKeyGlobal : String
  azureEmb : Bool × Option String × Option String
  azureCtorFail : Option PyErr
  gptCtorFail : Option PyErr
  wasmCtorFail : Option PyErr
  ragConnectFail : Option PyErr
  query : String → List ChatterMsg → Except PyErr (String × Usage)

/-- Reading `os.environ[name]`: raises `KeyError` when the variable is absent. -/
def envRead (v : Option String) : Except PyErr String :=
  match v with
  | some s => Except.ok s
  | none => Except.error "KeyError"

/-- Selection and construction of the conversation engine inside
`initialize_conversation`, as a pure function of environment and model
configuration: the Azure variant when `OPENAI_API_TYPE == "azure"`, the
Wasm variant when `modelConfig["model"] == "mistral-wasm"`, otherwise
the plain GPT variant. Reading a missing environment variable or a
missing `"model"` key raises, and each constructor may fail. -/
def selectChatter (env : Env) (modelConfig : ModelConfig) : Except PyErr Chatter :=
  if env.apiType = some "azure" then do
    let dep ← envRead env.deploymentName
    let mdl ← envRead env.openaiModel
    let ver ← envRead env.apiVersion
    let ep ← envRead env.azureEndpoint
    match env.azureCtorFail with
    | some e => Except.error e
    | none => do
      let key ← envRead env.envApiKey
      Except.ok (Chatter.set_api_key
        { kind := .azure, modelName := mdl, deployment := some dep,
          version := some ver, baseUrl := some ep, messages := [],
          ragAgent := none, hasChatAttr := false, apiKey := none } key)
  else
    match dictGet modelConfig "model" with
    | none => Except.error "KeyError"
    | some mv =>
      if mv = .str "mistral-wasm" then
        match env.wasmCtorFail with
        | some e => Except.error e
        | none => Except.ok
          { kind := .wasm, modelName := "mistral-wasm", deployment := none,
            version := none, baseUrl := none, messages := [],
            ragAgent := none, hasChatAttr := false, apiKey := none }
      else
        match env.gptCtorFail with
        | some e => Except.error e
        | none => Except.ok
          { kind := .gpt, modelName := "gpt-3.5-turbo", deployment := none,
            version := none, baseUrl := none, messages := [],
            ragAgent := none, hasChatAttr := false, apiKey := none }

/-- The module-level `initialize_conversation(sessionId, modelConfig)`:
acquires the store lock, constructs a fresh engine per the current
configuration and overwrites any record stored under `sessionId`; on a
construction failure it logs, re-raises, and leaves the store
unchanged; the lock is released in the `finally` block either way. -/
def initialize_conversation (env : Env) (now : Int) (st : Store)
    (sessionId : String) (modelConfig : ModelConfig) :
    Except PyErr Unit × Store × List Event :=
  match selectChatter env modelConfig with
  | Except.ok c =>
    (Except.ok (),
     dictSet st sessionId (mkSessionData sessionId modelConfig (some c) now),
     [Event.acquire, Event.release])
  | Except.error e =>
    (Except.error e, st, [Event.acquire, Event.logError, Event.release])

/-- The module-level `has_conversation(sessionId)`: a locked membership
test with no side effect on the store. -/
def has_conversation (st : Store) (sessionId : String) : Bool × List Event :=
  (dictHas st sessionId, [Event.acquire, Event.release])

/-- The module-level `get_conversation(sessionId)`: under the lock,
lazily creates the session with a copy of `defaultModelConfig` when it
is absent, then returns the stored record; an initialization failure is
logged and re-raised. -/
def get_conversation (env : Env) (now : Int) (st : Store) (sessionId : String) :
    Except PyErr SessionData × Store × List Event :=
  match dictGet st sessionId with
  | some sd => (Except.ok sd, st, [Event.acquire, Event.release])
  | none =>
    match initialize_conversation env now st sessionId defaultModelConfig with
    | (Except.ok _, st1, tr) =>
      match dictGet st1 sessionId with
      | some sd => (Except.ok sd, st1, Event.acquire :: tr ++ [Event.release])
      | none =>
        (Except.error "KeyError", st1,
         Event.acquire :: tr ++ [Event.logError, Event.release])
    | (Except.error e, st1, tr) =>
      (Except.error e, st1,
       Event.acquire :: tr ++ [Event.logError, Event.release])

/-- The module-level `remove_conversation(sessionId)`: under the lock,
deletes the record when present and is a silent no-op when absent; its
`except` clause swallows (only logs) any error, so it never raises. -/
def remove_conversation (st : Store) (sessionId : String) : Store × List Event :=
  if dictHas st sessionId then
    (dictDel st sessionId, [Event.acquire, Event.release])
  else
    (st, [Event.acquire, Event.release])

/-- Python return values of `chat`: `None` (engine missing or empty
message list), `False` (authorization missing), or a normal reply with
its usage counters. -/
inductive ChatRet where
  | pyNone
  | pyFalse
  | reply (msg : String) (usage : Usage)
deriving DecidableEq, Repr

/-- The role mapping of `_setup_messages`: `system` / `assistant` /
`user` map to the corresponding engine append; any other role maps to
nothing (the message is dropped). -/
def mapRole (m : Message) : Option ChatterMsg :=
  if m.role = "system" then some (.system m.content)
  else if m.role = "assistant" then some (.ai m.content)
  else if m.role = "user" then some (.user m.content)
  else none

/-- One iteration of the `_setup_messages` loop: the `if role == ...`
chain appending to the engine history. -/
def appendByRole (c : Chatter) (m : Message) : Chatter :=
  if m.role = "system" then { c with messages := c.messages ++ [.system m.content] }
  else if m.role = "assistant" then { c with messages := c.messages ++ [.ai m.content] }
  else if m.role = "user" then { c with messages := c.messages ++ [.user m.content] }
  else c

/-- Method `SessionData._setup_messages(openai_msgs)`: resets the engine
history to empty, then replays `openai_msgs` in order through the role
mapping. Returns the updated session (Python mutates it in place). -/
def SessionData.setup_messages (self : SessionData) (openaiMsgs : List Message) :
    SessionData :=
  match self.chatter with
  | none => self
  | some c =>
    { self with chatter := some (openaiMsgs.foldl appendByRole { c with messages := [] }) }

/-- The authorization step at the top of `SessionData.chat`: Azure
engines carry their key from the environment; for the other variants,
when no key is configured yet (`not openai.api_key or not
hasattr(chatter, "chat")`), an empty `authKey` aborts (Python
`return False`, modelled as `none`) and a non-empty one is installed
via `set_api_key`. -/
def authStep (env : Env) (c : Chatter) (authKey : String) : Option Chatter :=
  if c.kind ≠ .azure then
    if env.openaiApiKeyGlobal = "" ∨ c.hasChatAttr = false then
      if authKey = "" then none
      else some (c.set_api_key authKey)
    else some c
  else some c

/-- Method `SessionData.chat(messages, authKey, ragConfig, useRAG)`.
Mirrors the source line by line: `None` on a missing engine or empty
messages; for a non-Azure engine with no configured key
(`not openai.api_key or not hasattr(chatter, "chat")`), returns `False`
when `authKey` is empty and otherwise installs `authKey`; rebuilds the
engine's `rag_agent` from the per-call `ragConfig`; connects the
retrieval backend when `useRAG` (a connect failure propagates);
replays all but the last message into the freshly reset history; issues
the last message's content as the query, returning `(msg, usage)` on
success and logging then re-raising on an engine failure. -/
def SessionData.chat (env : Env) (self : SessionData) (messages : List Message)
    (authKey : String) (ragConfig : RagConfig) (useRAG : Bool) :
    Except PyErr ChatRet × SessionData × List Event :=
  match self.chatter with
  | none => (Except.ok .pyNone, self, [])
  | some c =>
    if hm : messages = [] then (Except.ok .pyNone, self, [])
    else
      let api_key := authKey
      match authStep env c authKey with
      | none => (Except.ok .pyFalse, self, [])
      | some c1 =>
        let isAz := env.azureEmb.1
        let azDep := env.azureEmb.2.1
        let azEp := env.azureEmb.2.2
        let ragA : RagAgentConfig :=
          { used := true, usePrompt := useRAG,
            chunkSize := ragConfig.chunkSize,
            chunkOverlap := ragConfig.overlapSize,
            splitByCharacters := ragConfig.splitByChar,
            nResults := ragConfig.resultNum,
            apiKey := api_key, isAzure := isAz,
            azureDeployment := azDep, azureEndpoint := azEp,
            connectionArgs := ragConfig.connectionArgs }
        let c2 : Chatter := { c1 with ragAgent := some ragA }
        let selfRag : SessionData := { self with chatter := some c2 }
        let connectRes : Except PyErr (List Event) :=
          if useRAG then
            match env.ragConnectFail with
            | some e => Except.error e
            | none => Except.ok [Event.ragConnect]
          else Except.ok []
        match connectRes with
        | Except.error e => (Except.error e, selfRag, [])
        | Except.ok tr0 =>
          let text := (messages.getLast hm).content
          let initMsgs := messages.dropLast
          let selfSetup := selfRag.setup_messages initMsgs
          let hist := match selfSetup.chatter with
            | some c3 => c3.messages
            | none => []
          match env.query text hist with
          | Except.ok (msg, usage) =>
            (Except.ok (.reply msg usage), selfSetup,
             tr0 ++ [Event.engineQuery text])
          | Except.error e =>
            (Except.error e, selfSetup,
             tr0 ++ [Event.engineQuery text, Event.logError])

/-- The module-level `chat(sessionId, messages, authKey, ragConfig,
useRAG)`: acquires the store lock, gets or lazily creates the session,
and calls `SessionData.chat` — all before the `finally` that releases
the lock; errors are logged and re-raised. The session object is
mutated in place in Python, modelled here by writing the updated record
back under its key. -/
def chat (env : Env) (now : Int) (st : Store) (sessionId : String)
    (messages : List Message) (authKey : String) (ragConfig : RagConfig)
    (useRAG : Bool) : Except PyErr ChatRet × Store × List Event :=
  match get_conversation env now st sessionId with
  | (Except.ok sd, st1, tr1) =>
    match SessionData.chat env sd messages authKey ragConfig useRAG with
    | (Except.ok r, sd1, tr2) =>
      (Except.ok r, dictSet st1 sessionId sd1,
       Event.acquire :: tr1 ++ tr2 ++ [Event.release])
    | (Except.error e, sd1, tr2) =>
      (Except.error e, dictSet st1 sessionId sd1,
       Event.acquire :: tr1 ++ tr2 ++ [Event.logError, Event.release])
  | (Except.error e, st1, tr1) =>
    (Except.error e, st1,
     Event.acquire :: tr1 ++ [Event.logError, Event.release])

/-- The scan loop of `recycle_conversations`: iterates over the store's
keys in order, fetching each record through `get_conversation` and
collecting the ids whose `refreshedAt + maxAge < now`. -/
def recycleScan (env : Env) (now : Int) (st : Store) :
    List String → Except PyErr (List String) × Store × List Event
  | [] => (Except.ok [], st, [])
  | s :: rest =>
    match get_conversation env now st s with
    | (Except.ok r, st1, tr1) =>
      match recycleScan env now st1 rest with
      | (Except.ok ids, st2, tr2) =>
        (Except.ok ((if r.refreshedAt + r.maxAge < now then [s] else []) ++ ids),
         st2, tr1 ++ tr2)
      | (Except.error e, st2, tr2) => (Except.error e, st2, tr1 ++ tr2)
    | (Except.error e, st1, tr1) => (Except.error e, st1, tr1)

/-- The removal loop of `recycle_conversations`: removes each collected
id through `remove_conversation`. -/
def removeAll (st : Store) : List String → Store × List Event
  | [] => (st, [])
  | s :: rest =>
    let p1 := remove_conversation st s
    let p2 := removeAll p1.1 rest
    (p2.1, p1.2 ++ p2.2)

/-- The recycling tick `recycle_conversations()`: under the store lock,
scans for expired sessions and then removes them; the `except` clause
logs and RE-RAISES any error, and the `finally` releases the lock.
`fault` injects an unexpected exception at the start of the scan,
modelling the "unexpected error mid-tick" the handler exists for
(no operation reachable from a well-formed store can itself raise). -/
def recycle_conversations (env : Env) (now : Int) (fault : Option PyErr)
    (st : Store) : Except PyErr Unit × Store × List Event :=
  match fault with
  | some e => (Except.error e, st, [Event.acquire, Event.logError, Event.release])
  | none =>
    match recycleScan env now st (dictKeys st) with
    | (Except.ok ids, st1, tr) =>
      let p := removeAll st1 ids
      (Except.ok (), p.1, Event.acquire :: tr ++ p.2 ++ [Event.release])
    | (Except.error e, st1, tr) =>
      (Except.error e, st1,
       Event.acquire :: tr ++ [Event.logError, Event.release])

/-- The lock depth at each engine-query event of a trace, starting from
depth `d`: acquires and releases move the depth, and each
`engineQuery` records the depth at which it was issued. -/
def queryDepths : List Event → Int → List Int
  | [], _ => []
  | Event.acquire :: r, d => queryDepths r (d + 1)
  | Event.release :: r, d => queryDepths r (d - 1)
  | Event.engineQuery _ :: r, d => d :: queryDepths r d
  | _ :: r, d => queryDepths r d

/-- Net lock-depth change over a trace. -/
def netDepth : List Event → Int
  | [] => 0
  | Event.acquire :: r => netDepth r + 1
  | Event.release :: r => netDepth r - 1
  | _ :: r => netDepth r

/-- A trace with no lock events at all. -/
def NoLock (tr : List Event) : Prop :=
  ∀ e ∈ tr, e ≠ Event.acquire ∧ e ≠ Event.release

section DictLemmas

variable {α : Type}

theorem dictGet_dictSet_self (d : List (String × α)) (k : String) (v : α) :
    dictGet (dictSet d k v) k = some v := by
  induction d with
  | nil => simp [dictSet, dictGet]
  | cons hd tl ih =>
    obtain ⟨k1, v1⟩ := hd
    by_cases h : k1 = k <;> simp [dictSet, dictGet, h, ih]

theorem dictKeys_cons (k1 : String) (v1 : α) (tl : List (String × α)) :
    dictKeys ((k1, v1) :: tl) = k1 :: dictKeys tl := rfl

theorem dictGet_dictSet_ne (d : List (String × α)) {k k2 : String} (v : α)
    (h : k ≠ k2) : dictGet (dictSet d k v) k2 = dictGet d k2 := by
  induction d with
  | nil => simp [dictSet, dictGet, h]
  | cons hd tl ih =>
    obtain ⟨k1, v1⟩ := hd
    by_cases h1 : k1 = k
    · subst h1; simp [dictSet, dictGet, h]
    · simp [dictSet, dictGet, h1, ih]

theorem dictGet_dictDel_ne (d : List (String × α)) {k k2 : String}
    (h : k ≠ k2) : dictGet (dictDel d k) k2 = dictGet d k2 := by
  induction d with
  | nil => simp [dictDel]
  | cons hd tl ih =>
    obtain ⟨k1, v1⟩ := hd
    by_cases h1 : k1 = k
    · subst h1; simp [dictDel, dictGet, h]
    · simp [dictDel, dictGet, h1, ih]

theorem mem_dictKeys_of_get {d : List (String × α)} {k : String} {v : α}
    (h : dictGet d k = some v) : k ∈ dictKeys d := by
  induction d with
  | nil => simp [dictGet] at h
  | cons hd tl ih =>
    obtain ⟨k1, v1⟩ := hd
    rw [dictKeys_cons, List.mem_cons]
    by_cases h1 : k1 = k
    · exact Or.inl h1.symm
    · simp only [dictGet, if_neg h1] at h
      exact Or.inr (ih h)

theorem get_isSome_of_mem_dictKeys {d : List (String × α)} {k : String}
    (h : k ∈ dictKeys d) : (dictGet d k).isSome := by
  induction d with
  | nil => simp [dictKeys] at h
  | cons hd tl ih =>
    obtain ⟨k1, v1⟩ := hd
    rw [dictKeys_cons, List.mem_cons] at h
    by_cases h1 : k1 = k
    · simp [dictGet, h1]
    · simp only [dictGet, if_neg h1]
      exact ih (h.resolve_left fun hh => h1 hh.symm)

theorem dictGet_dictDel_self {d : List (String × α)} {k : String}
    (hwf : (dictKeys d).Nodup) : dictGet (dictDel d k) k = none := by
  induction d with
  | nil => simp [dictDel, dictGet]
  | cons hd tl ih =>
    obtain ⟨k1, v1⟩ := hd
    rw [dictKeys_cons, List.nodup_cons] at hwf
    by_cases h1 : k1 = k
    · subst h1
      have hdel : dictDel ((k1, v1) :: tl) k1 = tl := by simp [dictDel]
      rw [hdel]
      cases hv : dictGet tl k1 with
      | none => rfl
      | some v => exact absurd (mem_dictKeys_of_get hv) hwf.1
    · simp [dictDel, dictGet, h1, ih hwf.2]

theorem dictKeys_dictDel_sublist (d : List (String × α)) (k : String) :
    (dictKeys (dictDel d k)).Sublist (dictKeys d) := by
  induction d with
  | nil => simp [dictDel]
  | cons hd tl ih =>
    obtain ⟨k1, v1⟩ := hd
    by_cases h1 : k1 = k
    · simp only [dictDel, if_pos h1, dictKeys_cons]
      exact List.sublist_cons_self _ _
    · simp only [dictDel, if_neg h1, dictKeys_cons]
      exact ih.cons₂ k1

theorem nodup_dictDel {d : List (String × α)} (k : String)
    (hwf : (dictKeys d).Nodup) : (dictKeys (dictDel d k)).Nodup :=
  (dictKeys_dictDel_sublist d k).nodup hwf

end DictLemmas

/-! Concrete fixtures used to evaluate the embedding at explicit inputs. -/

/-- A baseline environment: non-Azure, a configured module-global api
key, no external failures, and an engine that replies "pong" with 7
usage tokens. -/
def envBase : Env :=
  { apiType := none, deploymentName := none, openaiModel := none,
    apiVersion := none, azureEndpoint := none, envApiKey := none,
    openaiApiKeyGlobal := "gk", azureEmb := (false, none, none),
    azureCtorFail := none, gptCtorFail := none, wasmCtorFail := none,
    ragConnectFail := none,
    query := fun _ _ => Except.ok ("pong", 7) }

/-- A concrete per-call retrieval configuration. -/
def ragBase : RagConfig :=
  { splitByChar := true, chunkSize := 1000, overlapSize := 0, resultNum := 3,
    connectionArgs := { host := "h", port := "19530" } }

/-- The engine handle `GptConversation("gpt-3.5-turbo", ...)` produces. -/
def freshGpt : Chatter :=
  { kind := .gpt, modelName := "gpt-3.5-turbo", deployment := none,
    version := none, baseUrl := none, messages := [], ragAgent := none,
    hasChatAttr := false, apiKey := none }

/-- A GPT engine whose client is installed (a key was set earlier). -/
def readyGpt : Chatter := { freshGpt with hasChatAttr := true, apiKey := some "k" }

/-- A concrete session created at time 100. -/
def sdBase : SessionData := mkSessionData "s" defaultModelConfig (some readyGpt) 100

/-- A one-session store. -/
def stBase : Store := [("s", sdBase)]

/-! Helper lemmas about the store operations. -/

theorem get_conversation_present {st : Store} {s : String} {sd : SessionData}
    (env : Env) (now : Int) (h : dictGet st s = some sd) :
    get_conversation env now st s = (Except.ok sd, st, [Event.acquire, Event.release]) := by
  unfold get_conversation
  rw [h]

theorem get_conversation_absent_ok {st : Store} {s : String} {c : Chatter}
    (env : Env) (now : Int) (h : dictGet st s = none)
    (hc : selectChatter env defaultModelConfig = Except.ok c) :
    get_conversation env now st s =
      (Except.ok (mkSessionData s defaultModelConfig (some c) now),
       dictSet st s (mkSessionData s defaultModelConfig (some c) now),
       [Event.acquire, Event.acquire, Event.release, Event.release]) := by
  unfold get_conversation initialize_conversation
  rw [h, hc]
  simp [dictGet_dictSet_self]

theorem get_conversation_absent_err {st : Store} {s : String} {e : PyErr}
    (env : Env) (now : Int) (h : dictGet st s = none)
    (hc : selectChatter env defaultModelConfig = Except.error e) :
    get_conversation env now st s =
      (Except.error e, st,
       [Event.acquire, Event.acquire, Event.logError, Event.release,
        Event.logError, Event.release]) := by
  unfold get_conversation initialize_conversation
  rw [h, hc]
  rfl

/-! Claim C6. -/

/-- C6: for every sessionId and modelConfig, `initialize_conversation`
unconditionally constructs a new record whose engine handle is the one
`selectChatter` builds from the current environment and configuration,
overwrites any existing record under that id (every other key is
untouched), and sets both `createdAt` and `refreshedAt` to the call
time. -/
theorem initialize_conversation_overwrites_fresh (env : Env) (now : Int)
    (st : Store) (s : String) (cfg : ModelConfig) (c : Chatter)
    (hc : selectChatter env cfg = Except.ok c) :
    (initialize_conversation env now st s cfg).1 = Except.ok () ∧
    dictGet (initialize_conversation env now st s cfg).2.1 s =
      some { sessionId := s, modelConfig := cfg, chatter := some c,
             createdAt := now, refreshedAt := now, maxAge := MAX_AGE } ∧
    (∀ k, k ≠ s → dictGet (initialize_conversation env now st s cfg).2.1 k = dictGet st k) := by
  unfold initialize_conversation
  rw [hc]
  refine ⟨rfl, ?_, ?_⟩
  · exact dictGet_dictSet_self st s _
  · intro k hk
    exact dictGet_dictSet_ne st _ fun hh => hk hh.symm

/-- Witness for C6: initializing "s2" over the one-session base store
succeeds, stores a fresh GPT-engine record with both timestamps equal
to the call time 7, and leaves the record of "s" untouched. -/
theorem initialize_conversation_overwrites_fresh_witness :
    (initialize_conversation envBase 7 stBase "s2" defaultModelConfig).1 = Except.ok () ∧
    dictGet (initialize_conversation envBase 7 stBase "s2" defaultModelConfig).2.1 "s2" =
      some { sessionId := "s2", modelConfig := defaultModelConfig,
             chatter := some freshGpt, createdAt := 7, refreshedAt := 7,
             maxAge := MAX_AGE } ∧
    (∀ k, k ≠ "s2" →
      dictGet (initialize_conversation envBase 7 stBase "s2" defaultModelConfig).2.1 k =
        dictGet stBase k) :=
  initialize_conversation_overwrites_fresh envBase 7 stBase "s2"
    defaultModelConfig freshGpt rfl

/-! Claim C8. -/

/-- C8: if construction of the underlying conversation engine fails
during `initialize_conversation`, the error propagates synchronously to
the caller and the store is left exactly as it was (so no record is
inserted for the sessionId and every key is unchanged). -/
theorem initialize_conversation_ctor_failure (env : Env) (now : Int)
    (st : Store) (s : String) (cfg : ModelConfig) (e : PyErr)
    (he : selectChatter env cfg = Except.error e) :
    initialize_conversation env now st s cfg =
      (Except.error e, st, [Event.acquire, Event.logError, Event.release]) := by
  unfold initialize_conversation
  rw [he]

/-- Witness for C8: with `OPENAI_API_TYPE = "azure"` but no deployment
variable configured, the Azure engine construction raises `KeyError`;
the call propagates it and the base store is unchanged. -/
theorem initialize_conversation_ctor_failure_witness :
    initialize_conversation { envBase with apiType := some "azure" } 7 stBase "s2"
        defaultModelConfig =
      (Except.error "KeyError", stBase,
       [Event.acquire, Event.logError, Event.release]) :=
  initialize_conversation_ctor_failure { envBase with apiType := some "azure" } 7
    stBase "s2" defaultModelConfig "KeyError" rfl

/-! Claim C2. -/

/-- C2 (code bug, evaluated at the failing input): the source's
`get_conversation` accepts no modelConfig parameter at all; on a miss it
always creates the record with the module-default configuration. At the
unittest's input (session "balahbalah", empty store) with the intended
non-default configuration `[("model", "custom")]`, the created record's
modelConfig is `defaultModelConfig`, which differs from the supplied
one — so the claimed "modelConfig is the supplied modelConfig" fails. -/
theorem get_conversation_ignores_supplied_modelConfig :
    (get_conversation envBase 5 [] "balahbalah").1 =
      Except.ok (mkSessionData "balahbalah" defaultModelConfig (some freshGpt) 5) ∧
    defaultModelConfig ≠ [("model", PyVal.str "custom")] := by
  constructor
  · rw [@get_conversation_absent_ok [] "balahbalah" freshGpt envBase 5 rfl rfl]
  · decide

/-! Claim C3. -/

/-- C3: for a session whose engine variant requires an externally
supplied key (non-Azure), if no key is configured yet (the module
global `openai.api_key` is unset) and the `authKey` argument is absent
(empty), the chat call fails with the authorization-missing condition
(Python `False`): it returns `pyFalse`, leaves the session untouched,
and its trace is empty, so in particular no engine query is issued and
no normal reply is returned. -/
theorem sessionData_chat_auth_missing (env : Env) (self : SessionData)
    (c : Chatter) (messages : List Message) (ragConfig : RagConfig)
    (useRAG : Bool) (hc : self.chatter = some c) (hk : c.kind ≠ .azure)
    (hglobal : env.openaiApiKeyGlobal = "") (hmsg : messages ≠ []) :
    SessionData.chat env self messages "" ragConfig useRAG =
      (Except.ok ChatRet.pyFalse, self, []) := by
  unfold SessionData.chat
  rw [hc]
  simp [hmsg, authStep, hk, hglobal]

/-- Witness for C3: a fresh GPT session with no key configured anywhere
and a real incoming message: the call returns `False` and produces no
events at all. -/
theorem sessionData_chat_auth_missing_witness :
    SessionData.chat { envBase with openaiApiKeyGlobal := "" }
        (mkSessionData "s" defaultModelConfig (some freshGpt) 100)
        [{ role := "user", content := "q" }] "" ragBase false =
      (Except.ok ChatRet.pyFalse,
       mkSessionData "s" defaultModelConfig (some freshGpt) 100, []) :=
  sessionData_chat_auth_missing { envBase with openaiApiKeyGlobal := "" }
    (mkSessionData "s" defaultModelConfig (some freshGpt) 100) freshGpt
    [{ role := "user", content := "q" }] ragBase false rfl (by decide) rfl
    (by decide)

/-! Claim C10. -/

/-- C10: store membership tracks creation and removal exactly, and
removal is idempotent and total: `has` is false when no record exists,
true immediately after a successful `initialize_conversation` or a
successful `get_conversation`, and false immediately after
`remove_conversation`; removing an absent id is a no-op that does not
fail, and removing twice leaves the same store as removing once. -/
theorem store_membership_and_remove (st : Store) (s : String) :
    (dictGet st s = none → (has_conversation st s).1 = false) ∧
    (∀ (env : Env) (now : Int) (cfg : ModelConfig),
      (initialize_conversation env now st s cfg).1 = Except.ok () →
      (has_conversation (initialize_conversation env now st s cfg).2.1 s).1 = true) ∧
    (∀ (env : Env) (now : Int) (r : SessionData),
      (get_conversation env now st s).1 = Except.ok r →
      (has_conversation (get_conversation env now st s).2.1 s).1 = true) ∧
    (WFStore st → (has_conversation (remove_conversation st s).1 s).1 = false) ∧
    (dictGet st s = none →
      remove_conversation st s = (st, [Event.acquire, Event.release])) ∧
    (WFStore st →
      (remove_conversation (remove_conversation st s).1 s).1 =
        (remove_conversation st s).1) := by
  refine ⟨?_, ?_, ?_, ?_, ?_, ?_⟩
  · intro h
    simp [has_conversation, dictHas, h]
  · intro env now cfg hok
    unfold initialize_conversation at hok ⊢
    cases hsel : selectChatter env cfg with
    | ok c => simp [has_conversation, dictHas, dictGet_dictSet_self]
    | error e => rw [hsel] at hok; simp at hok
  · intro env now r hok
    cases hget : dictGet st s with
    | some sd =>
      rw [get_conversation_present env now hget]
      simp [has_conversation, dictHas, hget]
    | none =>
      cases hsel : selectChatter env defaultModelConfig with
      | ok c =>
        rw [get_conversation_absent_ok env now hget hsel]
        simp [has_conversation, dictHas, dictGet_dictSet_self]
      | error e =>
        rw [get_conversation_absent_err env now hget hsel] at hok
        simp at hok
  · intro hwf
    by_cases h : dictHas st s = true
    · have h1 : (dictGet st s).isSome = true := h
      simp [remove_conversation, dictHas, h1, has_conversation,
            dictGet_dictDel_self hwf]
    · have h1 : (dictGet st s).isSome = false := by
        simpa [dictHas] using h
      simp [remove_conversation, dictHas, h1, has_conversation]
  · intro h
    simp [remove_conversation, dictHas, h]
  · intro hwf
    by_cases h : dictHas st s = true
    · have h1 : (dictGet st s).isSome = true := h
      have h2 : dictGet (dictDel st s) s = none := dictGet_dictDel_self hwf
      simp [remove_conversation, dictHas, h1, h2]
    · have h1 : (dictGet st s).isSome = false := by
        simpa [dictHas] using h
      simp [remove_conversation, dictHas, h1]

/-- Witness for C10 at concrete inputs: "s" is absent from the empty
store; present right after initializing it over the base store and
right after a lazy `get_conversation` create; absent right after
removal from the base store; removing from the empty store is an exact
no-op; and a second removal changes nothing. -/
theorem store_membership_and_remove_witness :
    (has_conversation ([] : Store) "s").1 = false ∧
    (has_conversation (initialize_conversation envBase 7 stBase "s2"
        defaultModelConfig).2.1 "s2").1 = true ∧
    (has_conversation (get_conversation envBase 7 ([] : Store) "s").2.1 "s").1 = true ∧
    (has_conversation (remove_conversation stBase "s").1 "s").1 = false ∧
    remove_conversation ([] : Store) "s" = ([], [Event.acquire, Event.release]) ∧
    (remove_conversation (remove_conversation stBase "s").1 "s").1 =
      (remove_conversation stBase "s").1 :=
  ⟨(store_membership_and_remove [] "s").1 rfl,
   (store_membership_and_remove stBase "s2").2.1 envBase 7 defaultModelConfig rfl,
   (store_membership_and_remove [] "s").2.2.1 envBase 7
     (mkSessionData "s" defaultModelConfig (some freshGpt) 7) rfl,
   (store_membership_and_remove stBase "s").2.2.2.1
     (by show (dictKeys stBase).Nodup; decide),
   (store_membership_and_remove [] "s").2.2.2.2.1 rfl,
   (store_membership_and_remove stBase "s").2.2.2.2.2
     (by show (dictKeys stBase).Nodup; decide)⟩

/-! Claim C4. -/

/-- The expiry test of the recycling scan, as a predicate on keys of a
fixed store: the stored record satisfies `refreshedAt + maxAge < now`. -/
def expiredIn (st : Store) (now : Int) (k : String) : Bool :=
  match dictGet st k with
  | some r => decide (r.refreshedAt + r.maxAge < now)
  | none => false

theorem recycleScan_present (env : Env) (now : Int) (st : Store)
    (ks : List String) (hpres : ∀ k ∈ ks, (dictGet st k).isSome = true) :
    (recycleScan env now st ks).1 = Except.ok (ks.filter (expiredIn st now)) ∧
    (recycleScan env now st ks).2.1 = st := by
  induction ks with
  | nil => exact ⟨rfl, rfl⟩
  | cons k rest ih =>
    obtain ⟨r, hr⟩ := Option.isSome_iff_exists.mp (hpres k (by simp))
    have ihr := ih fun k2 hk2 => hpres k2 (by simp [hk2])
    rcases hsc : recycleScan env now st rest with ⟨res, stM, trM⟩
    rw [hsc] at ihr
    obtain ⟨ih1, ih2⟩ := ihr
    simp only at ih1 ih2
    rw [ih1, ih2] at hsc
    have hexp : expiredIn st now k = decide (r.refreshedAt + r.maxAge < now) := by
      unfold expiredIn
      rw [hr]
    unfold recycleScan
    rw [get_conversation_present env now hr]
    simp only [hsc]
    constructor
    · simp only [List.filter_cons, hexp]
      by_cases hlt : r.refreshedAt + r.maxAge < now
      · simp [hlt]
      · simp [hlt]
    · simp

theorem WFStore_remove (st : Store) (s : String) (hwf : WFStore st) :
    WFStore (remove_conversation st s).1 := by
  unfold remove_conversation
  by_cases h : dictHas st s = true
  · have h1 : (dictGet st s).isSome = true := h
    simpa [dictHas, h1] using nodup_dictDel s hwf
  · have h1 : (dictGet st s).isSome = false := by
      simpa [dictHas] using h
    simpa [dictHas, h1] using hwf

theorem remove_conversation_dictGet (st : Store) (s : String) (hwf : WFStore st)
    (k : String) :
    dictGet (remove_conversation st s).1 k =
      if k = s then none else dictGet st k := by
  unfold remove_conversation
  by_cases h : (dictGet st s).isSome = true
  · simp only [dictHas, h, if_true]
    by_cases hk : k = s
    · subst hk
      simp [dictGet_dictDel_self hwf]
    · simp [hk, dictGet_dictDel_ne st fun hh => hk hh.symm]
  · have h0 : dictGet st s = none := by
      cases hg : dictGet st s with
      | none => rfl
      | some v => rw [hg] at h; simp at h
    simp only [dictHas, h, if_false]
    by_cases hk : k = s
    · subst hk
      simpa using h0
    · simp [hk]

theorem removeAll_dictGet (ids : List String) (st : Store) (hwf : WFStore st)
    (k : String) :
    dictGet (removeAll st ids).1 k = if k ∈ ids then none else dictGet st k := by
  induction ids generalizing st with
  | nil => simp [removeAll]
  | cons s rest ih =>
    unfold removeAll
    have hwf1 : WFStore (remove_conversation st s).1 := WFStore_remove st s hwf
    have ihr := ih (remove_conversation st s).1 hwf1
    simp only [ihr, remove_conversation_dictGet st s hwf k]
    by_cases h1 : k ∈ rest
    · simp [h1]
    · by_cases h2 : k = s
      · simp [h1, h2]
      · simp [h1, h2]

/-- C4: over a well-formed store, a recycling tick at time `now` raises
no error and removes exactly the sessions strictly past their deadline:
after the tick, a key maps to its old record iff
`refreshedAt + maxAge < now` fails for that record, and is gone iff the
inequality holds. An empty store is covered by the same statement
(every lookup is `none` before and after, and the tick returns
normally). -/
theorem recycle_removes_exactly_expired (env : Env) (now : Int) (st : Store)
    (hwf : WFStore st) :
    (recycle_conversations env now none st).1 = Except.ok () ∧
    ∀ s, dictGet (recycle_conversations env now none st).2.1 s =
      match dictGet st s with
      | some r => if r.refreshedAt + r.maxAge < now then none else some r
      | none => none := by
  have hpres : ∀ k ∈ dictKeys st, (dictGet st k).isSome = true :=
    fun k hk => get_isSome_of_mem_dictKeys hk
  have hscan := recycleScan_present env now st (dictKeys st) hpres
  rcases hsc : recycleScan env now st (dictKeys st) with ⟨res, st1, tr⟩
  rw [hsc] at hscan
  obtain ⟨h1, h2⟩ := hscan
  simp only at h1 h2
  rw [h1, h2] at hsc
  unfold recycle_conversations
  rw [hsc]
  refine ⟨rfl, fun s => ?_⟩
  show dictGet (removeAll st ((dictKeys st).filter (expiredIn st now))).1 s =
      match dictGet st s with
      | some r => if r.refreshedAt + r.maxAge < now then none else some r
      | none => none
  rw [removeAll_dictGet ((dictKeys st).filter (expiredIn st now)) st hwf s]
  cases hg : dictGet st s with
  | none =>
    have hnotin : s ∉ (dictKeys st).filter (expiredIn st now) := by
      intro hmem
      have hs := get_isSome_of_mem_dictKeys (List.mem_of_mem_filter hmem)
      rw [hg] at hs
      simp at hs
    simp [hnotin]
  | some r =>
    have hkeys : s ∈ dictKeys st := mem_dictKeys_of_get hg
    have hexp : expiredIn st now s = decide (r.refreshedAt + r.maxAge < now) := by
      unfold expiredIn
      rw [hg]
    by_cases hlt : r.refreshedAt + r.maxAge < now
    · have hin : s ∈ (dictKeys st).filter (expiredIn st now) :=
        List.mem_filter.mpr ⟨hkeys, by rw [hexp]; exact decide_eq_true hlt⟩
      simp [hin, hlt]
    · have hnotin : s ∉ (dictKeys st).filter (expiredIn st now) := by
        intro hmem
        have := (List.mem_filter.mp hmem).2
        rw [hexp] at this
        exact hlt (of_decide_eq_true this)
      simp [hnotin, hg, hlt]

/-- Witness for C4: over the base store (one session refreshed at 100
with the 3-day maxAge), a tick at `100 + MAX_AGE + 1` removes the
session, a tick at `100 + MAX_AGE - 1` keeps it unchanged, and a tick
over the empty store returns normally. -/
theorem recycle_removes_exactly_expired_witness :
    dictGet (recycle_conversations envBase (100 + MAX_AGE + 1) none stBase).2.1 "s"
      = none ∧
    dictGet (recycle_conversations envBase (100 + MAX_AGE - 1) none stBase).2.1 "s"
      = some sdBase ∧
    (recycle_conversations envBase 0 none ([] : Store)).1 = Except.ok () :=
  ⟨((recycle_removes_exactly_expired envBase (100 + MAX_AGE + 1) stBase
      (by show (dictKeys stBase).Nodup; decide)).2 "s").trans (by decide),
   ((recycle_removes_exactly_expired envBase (100 + MAX_AGE - 1) stBase
      (by show (dictKeys stBase).Nodup; decide)).2 "s").trans (by decide),
   (recycle_removes_exactly_expired envBase 0 []
      (by show (dictKeys ([] : Store)).Nodup; decide)).1⟩

/-! Claim C7. -/

/-- Every record of the store keeps `refreshedAt` equal to `createdAt`
(no operation ever refreshes a session, so expiry is fixed from
creation). -/
def FixedClock (st : Store) : Prop :=
  ∀ p ∈ st, (Prod.snd p).refreshedAt = (Prod.snd p).createdAt

theorem sessionData_chat_frame (env : Env) (sd : SessionData)
    (msgs : List Message) (ak : String) (rc : RagConfig) (ur : Bool) :
    (SessionData.chat env sd msgs ak rc ur).2.1.createdAt = sd.createdAt ∧
    (SessionData.chat env sd msgs ak rc ur).2.1.refreshedAt = sd.refreshedAt ∧
    (SessionData.chat env sd msgs ak rc ur).2.1.sessionId = sd.sessionId ∧
    (SessionData.chat env sd msgs ak rc ur).2.1.modelConfig = sd.modelConfig ∧
    (SessionData.chat env sd msgs ak rc ur).2.1.maxAge = sd.maxAge := by
  unfold SessionData.chat SessionData.setup_messages
  repeat' split
  all_goals (try simp)
  all_goals (split <;> simp)

theorem mem_of_dictGet {st : Store} {k : String} {r : SessionData}
    (h : dictGet st k = some r) : (k, r) ∈ st := by
  induction st with
  | nil => simp [dictGet] at h
  | cons hd tl ih =>
    obtain ⟨k1, v1⟩ := hd
    by_cases h1 : k1 = k
    · subst h1
      simp only [dictGet, if_pos rfl] at h
      cases h
      simp
    · simp only [dictGet, if_neg h1] at h
      exact List.mem_cons_of_mem _ (ih h)

theorem mem_dictSet {st : Store} {s : String} {v : SessionData}
    {p : String × SessionData} (h : p ∈ dictSet st s v) :
    p = (s, v) ∨ p ∈ st := by
  induction st with
  | nil => simpa [dictSet] using h
  | cons hd tl ih =>
    obtain ⟨k1, v1⟩ := hd
    by_cases h1 : k1 = s
    · rw [show dictSet ((k1, v1) :: tl) s v = (s, v) :: tl from by
        simp [dictSet, h1]] at h
      rcases List.mem_cons.mp h with h2 | h2
      · exact Or.inl h2
      · exact Or.inr (List.mem_cons_of_mem _ h2)
    · rw [show dictSet ((k1, v1) :: tl) s v = (k1, v1) :: dictSet tl s v from by
        simp [dictSet, h1]] at h
      rcases List.mem_cons.mp h with h2 | h2
      · exact Or.inr (by simp [h2])
      · rcases ih h2 with h3 | h3
        · exact Or.inl h3
        · exact Or.inr (List.mem_cons_of_mem _ h3)

theorem dictDel_sublist (st : Store) (k : String) :
    (dictDel st k).Sublist st := by
  induction st with
  | nil => simp [dictDel]
  | cons hd tl ih =>
    obtain ⟨k1, v1⟩ := hd
    by_cases h1 : k1 = k
    · simp only [dictDel, if_pos h1]
      exact List.sublist_cons_self _ _
    · simp only [dictDel, if_neg h1]
      exact ih.cons₂ _

theorem mem_remove_conversation {st : Store} {s : String}
    {p : String × SessionData} (h : p ∈ (remove_conversation st s).1) : p ∈ st := by
  unfold remove_conversation at h
  by_cases h1 : (dictGet st s).isSome = true
  · simp only [dictHas, h1, if_true] at h
    exact (dictDel_sublist st s).subset h
  · simp only [dictHas, h1, if_false] at h
    simpa using h

theorem mem_removeAll {ids : List String} {st : Store}
    {p : String × SessionData} (h : p ∈ (removeAll st ids).1) : p ∈ st := by
  induction ids generalizing st with
  | nil => simpa [removeAll] using h
  | cons s rest ih =>
    unfold removeAll at h
    exact mem_remove_conversation (ih h)

theorem FixedClock_dictSet {st : Store} {s : String} {v : SessionData}
    (hinv : FixedClock st) (hv : v.refreshedAt = v.createdAt) :
    FixedClock (dictSet st s v) := by
  intro p hp
  rcases mem_dictSet hp with h | h
  · rw [h]
    exact hv
  · exact hinv p h

/-- Reduction of a fault-free recycling tick to the scan-then-remove
composition (no well-formedness needed: every key produced by the scan
is present, so the scan itself never errors and never alters the
store). -/
theorem recycle_none_reduce (env : Env) (now : Int) (st : Store) :
    (recycle_conversations env now none st).1 = Except.ok () ∧
    (recycle_conversations env now none st).2.1 =
      (removeAll st ((dictKeys st).filter (expiredIn st now))).1 := by
  have hpres : ∀ k ∈ dictKeys st, (dictGet st k).isSome = true :=
    fun k hk => get_isSome_of_mem_dictKeys hk
  have hscan := recycleScan_present env now st (dictKeys st) hpres
  rcases hsc : recycleScan env now st (dictKeys st) with ⟨res, stM, trM⟩
  rw [hsc] at hscan
  obtain ⟨h1, h2⟩ := hscan
  simp only at h1 h2
  rw [h1, h2] at hsc
  unfold recycle_conversations
  rw [hsc]
  exact ⟨rfl, rfl⟩

/-- Reduction of the module-level `chat` to its store effect: on a
successful lookup-or-create, the (possibly mutated) session is written
back under its key; on a lookup failure the store of the failed
`get_conversation` is kept. -/
theorem chat_reduce (env : Env) (now : Int) (st : Store) (s : String)
    (msgs : List Message) (ak : String) (rc : RagConfig) (ur : Bool) :
    (chat env now st s msgs ak rc ur).2.1 =
      match (get_conversation env now st s).1 with
      | Except.ok sd =>
        dictSet (get_conversation env now st s).2.1 s
          (SessionData.chat env sd msgs ak rc ur).2.1
      | Except.error _e => (get_conversation env now st s).2.1 := by
  unfold chat
  rcases hG : get_conversation env now st s with ⟨resG, st1, tr1⟩
  simp only [hG]
  cases resG with
  | error _ => rfl
  | ok sd0 =>
    rcases hC : SessionData.chat env sd0 msgs ak rc ur with ⟨resC, sd1, tr2⟩
    simp only [hC]
    cases resC <;> rfl

/-- C7: no operation mutates a session's identity or timestamps after
construction. Concretely: `SessionData.chat` (hence any chat) preserves
`createdAt`, `refreshedAt`, `sessionId`, `modelConfig` and `maxAge` of
the session it runs on; the `refreshedAt = createdAt` invariant of
freshly constructed records is preserved by `initialize_conversation`,
`get_conversation`, module-level `chat` and a recycling tick; and a
record that survives a recycling tick is bit-for-bit the record that
was stored before it (the scan never rewrites surviving records). -/
theorem timestamps_fixed_from_creation (env : Env) (now : Int) (st : Store)
    (s : String) (cfg : ModelConfig) (messages : List Message)
    (authKey : String) (ragConfig : RagConfig) (useRAG : Bool)
    (fault : Option PyErr) (sd : SessionData)
    (hwf : WFStore st) (hinv : FixedClock st) :
    ((SessionData.chat env sd messages authKey ragConfig useRAG).2.1.createdAt
        = sd.createdAt ∧
     (SessionData.chat env sd messages authKey ragConfig useRAG).2.1.refreshedAt
        = sd.refreshedAt ∧
     (SessionData.chat env sd messages authKey ragConfig useRAG).2.1.sessionId
        = sd.sessionId ∧
     (SessionData.chat env sd messages authKey ragConfig useRAG).2.1.modelConfig
        = sd.modelConfig ∧
     (SessionData.chat env sd messages authKey ragConfig useRAG).2.1.maxAge
        = sd.maxAge) ∧
    FixedClock (initialize_conversation env now st s cfg).2.1 ∧
    FixedClock (get_conversation env now st s).2.1 ∧
    FixedClock (chat env now st s messages authKey ragConfig useRAG).2.1 ∧
    FixedClock (recycle_conversations env now fault st).2.1 ∧
    (∀ k r, dictGet (recycle_conversations env now fault st).2.1 k = some r →
      dictGet st k = some r) := by
  have hinit : FixedClock (initialize_conversation env now st s cfg).2.1 := by
    unfold initialize_conversation
    cases hsel : selectChatter env cfg with
    | ok c => exact FixedClock_dictSet hinv rfl
    | error e => exact hinv
  have hget : FixedClock (get_conversation env now st s).2.1 := by
    cases hg : dictGet st s with
    | some sd0 =>
      rw [get_conversation_present env now hg]
      exact hinv
    | none =>
      cases hsel : selectChatter env defaultModelConfig with
      | ok c =>
        rw [get_conversation_absent_ok env now hg hsel]
        exact FixedClock_dictSet hinv rfl
      | error e =>
        rw [get_conversation_absent_err env now hg hsel]
        exact hinv
  refine ⟨sessionData_chat_frame env sd messages authKey ragConfig useRAG,
    hinit, hget, ?_, ?_, ?_⟩
  · rw [chat_reduce env now st s messages authKey ragConfig useRAG]
    cases hg : dictGet st s with
    | some sd0 =>
      rw [get_conversation_present env now hg]
      show FixedClock (dictSet st s
        (SessionData.chat env sd0 messages authKey ragConfig useRAG).2.1)
      have hframe := sessionData_chat_frame env sd0 messages authKey ragConfig useRAG
      have hsd0 : sd0.refreshedAt = sd0.createdAt := hinv (s, sd0) (mem_of_dictGet hg)
      exact FixedClock_dictSet hinv (by rw [hframe.2.1, hframe.1]; exact hsd0)
    | none =>
      cases hsel : selectChatter env defaultModelConfig with
      | ok c =>
        rw [get_conversation_absent_ok env now hg hsel]
        show FixedClock (dictSet
          (dictSet st s (mkSessionData s defaultModelConfig (some c) now)) s
          (SessionData.chat env (mkSessionData s defaultModelConfig (some c) now)
            messages authKey ragConfig useRAG).2.1)
        have hframe := sessionData_chat_frame env
          (mkSessionData s defaultModelConfig (some c) now)
          messages authKey ragConfig useRAG
        refine FixedClock_dictSet (FixedClock_dictSet hinv rfl) ?_
        rw [hframe.2.1, hframe.1]
        rfl
      | error e =>
        rw [get_conversation_absent_err env now hg hsel]
        exact hinv
  · cases fault with
    | some e => exact hinv
    | none =>
      rw [(recycle_none_reduce env now st).2]
      intro p hp
      exact hinv p (mem_removeAll hp)
  · cases fault with
    | some e =>
      intro k r h
      exact h
    | none =>
      intro k r h
      rw [(recycle_none_reduce env now st).2] at h
      rw [removeAll_dictGet _ st hwf k] at h
      by_cases hk : k ∈ (dictKeys st).filter (expiredIn st now)
      · rw [if_pos hk] at h
        cases h
      · rwa [if_neg hk] at h

/-- Witness for C7 at concrete inputs: the base store is well-formed
and satisfies the fixed-clock invariant, and the conjunction holds for
a concrete chat call, initialize, lookup and tick over it. -/
theorem timestamps_fixed_from_creation_witness :
    ((SessionData.chat envBase sdBase [{ role := "user", content := "q" }] ""
        ragBase false).2.1.createdAt = sdBase.createdAt ∧
     (SessionData.chat envBase sdBase [{ role := "user", content := "q" }] ""
        ragBase false).2.1.refreshedAt = sdBase.refreshedAt ∧
     (SessionData.chat envBase sdBase [{ role := "user", content := "q" }] ""
        ragBase false).2.1.sessionId = sdBase.sessionId ∧
     (SessionData.chat envBase sdBase [{ role := "user", content := "q" }] ""
        ragBase false).2.1.modelConfig = sdBase.modelConfig ∧
     (SessionData.chat envBase sdBase [{ role := "user", content := "q" }] ""
        ragBase false).2.1.maxAge = sdBase.maxAge) ∧
    FixedClock (initialize_conversation envBase 7 stBase "s2" defaultModelConfig).2.1 ∧
    FixedClock (get_conversation envBase 7 stBase "s2").2.1 ∧
    FixedClock (chat envBase 7 stBase "s2" [{ role := "user", content := "q" }] ""
      ragBase false).2.1 ∧
    FixedClock (recycle_conversations envBase 7 none stBase).2.1 ∧
    (∀ k r, dictGet (recycle_conversations envBase 7 none stBase).2.1 k = some r →
      dictGet stBase k = some r) :=
  timestamps_fixed_from_creation envBase 7 stBase "s2" defaultModelConfig
    [{ role := "user", content := "q" }] "" ragBase false none sdBase
    (by show (dictKeys stBase).Nodup; decide)
    (by show ∀ p ∈ stBase, (Prod.snd p).refreshedAt = (Prod.snd p).createdAt; decide)

/-! Claim C9. -/

theorem appendByRole_eq (c : Chatter) (m : Message) :
    appendByRole c m = { c with messages := c.messages ++ (mapRole m).toList } := by
  unfold appendByRole mapRole
  by_cases h1 : m.role = "system"
  · simp [h1]
  · by_cases h2 : m.role = "assistant"
    · simp [h1, h2]
    · by_cases h3 : m.role = "user"
      · simp [h1, h2, h3]
      · simp [h1, h2, h3]

theorem foldl_appendByRole (msgs : List Message) (c : Chatter) :
    msgs.foldl appendByRole c =
      { c with messages := c.messages ++ msgs.filterMap mapRole } := by
  induction msgs generalizing c with
  | nil => simp
  | cons m rest ih =>
    rw [List.foldl_cons, ih, appendByRole_eq]
    simp [List.filterMap_cons]
    cases mapRole m <;> simp

theorem authStep_some (env : Env) (c : Chatter) (authKey : String)
    (hauth : c.kind = .azure ∨
      (env.openaiApiKeyGlobal ≠ "" ∧ c.hasChatAttr = true) ∨ authKey ≠ "") :
    ∃ c1, authStep env c authKey = some c1 ∧ c1.messages = c.messages := by
  unfold authStep
  by_cases hk : c.kind = .azure
  · exact ⟨c, by simp [hk], rfl⟩
  · simp only [hk, ne_eq, not_false_eq_true, if_true]
    by_cases hcfg : env.openaiApiKeyGlobal = "" ∨ c.hasChatAttr = false
    · have hak : authKey ≠ "" := by
        rcases hauth with h | h | h
        · exact absurd h hk
        · rcases hcfg with h2 | h2
          · exact absurd h2 h.1
          · rw [h.2] at h2
            cases h2
        · exact h
      exact ⟨c.set_api_key authKey, by simp [hcfg, hak], rfl⟩
    · exact ⟨c, by simp [hcfg], rfl⟩

/-- C9: for a non-empty message list, a chat call that passes the
authorization step, whose retrieval connect succeeds when requested,
and whose engine query succeeds, replays exactly the messages before
the last one — in order, mapping roles `system`/`assistant`/`user` to
the corresponding appends and dropping every other role — into the
engine's freshly reset history, issues the last message's content as
the query, and returns the engine's reply text and usage counters. -/
theorem chat_replays_history_and_queries_last (env : Env) (self : SessionData)
    (c : Chatter) (initMsgs : List Message) (lastMsg : Message)
    (authKey : String) (ragConfig : RagConfig) (useRAG : Bool)
    (msg : String) (usage : Usage) (hc : self.chatter = some c)
    (hauth : c.kind = .azure ∨
      (env.openaiApiKeyGlobal ≠ "" ∧ c.hasChatAttr = true) ∨ authKey ≠ "")
    (hrag : useRAG = true → env.ragConnectFail = none)
    (hq : env.query lastMsg.content (initMsgs.filterMap mapRole) =
      Except.ok (msg, usage)) :
    ∃ c3,
      SessionData.chat env self (initMsgs ++ [lastMsg]) authKey ragConfig useRAG =
        (Except.ok (ChatRet.reply msg usage), { self with chatter := some c3 },
         (if useRAG then [Event.ragConnect] else []) ++
           [Event.engineQuery lastMsg.content]) ∧
      c3.messages = initMsgs.filterMap mapRole := by
  obtain ⟨c1, hc1, hmsg1⟩ := authStep_some env c authKey hauth
  have hne : initMsgs ++ [lastMsg] ≠ [] := by simp
  have hlast : ∀ h2 : ¬(initMsgs ++ [lastMsg] = []),
      (initMsgs ++ [lastMsg]).getLast h2 = lastMsg := fun h2 => by
    simp [List.getLast_append]
  unfold SessionData.chat
  simp only [hc]
  rw [dif_neg hne]
  simp only [hc1]
  unfold SessionData.setup_messages
  simp only [foldl_appendByRole, List.dropLast_concat, hlast]
  simp only [hmsg1]
  cases useRAG with
  | false =>
    simp only [if_false, Bool.false_eq_true]
    simp only [List.nil_append, hq]
    exact ⟨_, rfl, by simp⟩
  | true =>
    rw [hrag rfl]
    simp only [List.nil_append, hq]
    exact ⟨_, rfl, by simp⟩

/-- Witness for C9: a four-message conversation (a system turn, a turn
with the unknown role "tool", a user turn, then the new user query
"q2") against the ready GPT session: the reply and usage of the base
engine come back, the trace holds exactly the engine query for "q2",
and the replayed history is the role-mapped prefix with the "tool"
message dropped. -/
theorem chat_replays_history_and_queries_last_witness :
    ∃ c3,
      SessionData.chat envBase sdBase
          ([{ role := "system", content := "a" },
            { role := "tool", content := "x" },
            { role := "user", content := "b" }] ++
           [{ role := "user", content := "q2" }]) "" ragBase false =
        (Except.ok (ChatRet.reply "pong" 7), { sdBase with chatter := some c3 },
         (if false then [Event.ragConnect] else []) ++
           [Event.engineQuery "q2"]) ∧
      c3.messages =
        [{ role := "system", content := "a" },
         { role := "tool", content := "x" },
         { role := "user", content := "b" }].filterMap mapRole :=
  chat_replays_history_and_queries_last envBase sdBase readyGpt
    [{ role := "system", content := "a" },
     { role := "tool", content := "x" },
     { role := "user", content := "b" }]
    { role := "user", content := "q2" } "" ragBase false "pong" 7
    rfl (Or.inr (Or.inl (by decide))) (fun h => by cases h) rfl

/-! Claim C1. -/

theorem netDepth_append (a b : List Event) :
    netDepth (a ++ b) = netDepth a + netDepth b := by
  induction a with
  | nil => simp [netDepth]
  | cons e r ih =>
    cases e with
    | acquire =>
      show netDepth (r ++ b) + 1 = netDepth r + 1 + netDepth b
      omega
    | release =>
      show netDepth (r ++ b) - 1 = netDepth r - 1 + netDepth b
      omega
    | logError =>
      show netDepth (r ++ b) = netDepth r + netDepth b
      omega
    | ragConnect =>
      show netDepth (r ++ b) = netDepth r + netDepth b
      omega
    | engineQuery t =>
      show netDepth (r ++ b) = netDepth r + netDepth b
      omega

theorem queryDepths_append (a b : List Event) (d : Int) :
    queryDepths (a ++ b) d = queryDepths a d ++ queryDepths b (d + netDepth a) := by
  induction a generalizing d with
  | nil => simp [queryDepths, netDepth]
  | cons e r ih =>
    cases e with
    | acquire =>
      show queryDepths (r ++ b) (d + 1) =
        queryDepths r (d + 1) ++ queryDepths b (d + (netDepth r + 1))
      rw [ih]
      have h : d + 1 + netDepth r = d + (netDepth r + 1) := by ring
      rw [h]
    | release =>
      show queryDepths (r ++ b) (d - 1) =
        queryDepths r (d - 1) ++ queryDepths b (d + (netDepth r - 1))
      rw [ih]
      have h : d - 1 + netDepth r = d + (netDepth r - 1) := by ring
      rw [h]
    | logError =>
      show queryDepths (r ++ b) d = queryDepths r d ++ queryDepths b (d + netDepth r)
      rw [ih]
    | ragConnect =>
      show queryDepths (r ++ b) d = queryDepths r d ++ queryDepths b (d + netDepth r)
      rw [ih]
    | engineQuery t =>
      show d :: queryDepths (r ++ b) d =
        d :: (queryDepths r d ++ queryDepths b (d + netDepth r))
      rw [ih]

theorem NoLock_netDepth {tr : List Event} (h : NoLock tr) : netDepth tr = 0 := by
  induction tr with
  | nil => rfl
  | cons e r ih =>
    have he := h e (by simp)
    have hr : NoLock r := fun x hx => h x (by simp [hx])
    cases e with
    | acquire => exact absurd rfl he.1
    | release => exact absurd rfl he.2
    | logError => simpa [netDepth] using ih hr
    | ragConnect => simpa [netDepth] using ih hr
    | engineQuery t => simpa [netDepth] using ih hr

theorem NoLock_queryDepths {tr : List Event} (h : NoLock tr) (d : Int) :
    ∀ x ∈ queryDepths tr d, x = d := by
  induction tr generalizing d with
  | nil => simp [queryDepths]
  | cons e r ih =>
    have he := h e (by simp)
    have hr : NoLock r := fun x hx => h x (by simp [hx])
    cases e with
    | acquire => exact absurd rfl he.1
    | release => exact absurd rfl he.2
    | logError => simpa [queryDepths] using ih hr d
    | ragConnect => simpa [queryDepths] using ih hr d
    | engineQuery t =>
      intro x hx
      simp only [queryDepths, List.mem_cons] at hx
      rcases hx with hx | hx
      · exact hx
      · exact ih hr d x hx

theorem get_conversation_trace (env : Env) (now : Int) (st : Store)
    (s : String) (d : Int) :
    queryDepths (get_conversation env now st s).2.2 d = [] ∧
    netDepth (get_conversation env now st s).2.2 = 0 := by
  cases hg : dictGet st s with
  | some sd =>
    rw [get_conversation_present env now hg]
    exact ⟨rfl, rfl⟩
  | none =>
    cases hsel : selectChatter env defaultModelConfig with
    | ok c =>
      rw [get_conversation_absent_ok env now hg hsel]
      exact ⟨rfl, rfl⟩
    | error e =>
      rw [get_conversation_absent_err env now hg hsel]
      exact ⟨rfl, rfl⟩

theorem sessionData_chat_NoLock (env : Env) (self : SessionData)
    (msgs : List Message) (ak : String) (rc : RagConfig) (ur : Bool) :
    NoLock (SessionData.chat env self msgs ak rc ur).2.2 := by
  unfold SessionData.chat
  repeat' split
  all_goals (try simp [NoLock])
  all_goals (split <;> simp [NoLock])

/-- C1 counterexample: at a concrete module-level chat call that does
reach the engine (one stored GPT session with an installed key, one
user message), the single engine query is issued at lock depth 1, not
0 — the store lock acquired at the top of `chat` is still held when
`chatter.query` runs, contradicting "the store lock is released before
the engine's query is issued". -/
theorem chat_query_issued_under_lock_cex :
    queryDepths ((chat envBase 200 stBase "s"
        [{ role := "user", content := "q" }] "" ragBase false).2.2) 0 = [1] ∧
    (1 : Int) ≠ 0 := by
  constructor
  · rfl
  · decide

/-- C1 (amended): the store lock is NOT released before the engine
query; it is held across it. Every engine query issued during a
module-level `chat` call happens at lock depth exactly 1 — the lock
acquired on entry to `chat` is released only in its `finally`, after
`SessionData.chat` (and hence `chatter.query`) has returned, so any two
chat calls, even on different sessions, are serialized behind the store
lock for the whole engine query. -/
theorem chat_engine_query_at_lock_depth_one (env : Env) (now : Int)
    (st : Store) (s : String) (msgs : List Message) (ak : String)
    (rc : RagConfig) (ur : Bool) :
    ∀ d ∈ queryDepths ((chat env now st s msgs ak rc ur).2.2) 0, d = 1 := by
  unfold chat
  rcases hG : get_conversation env now st s with ⟨resG, st1, tr1⟩
  have hq1 : ∀ d2 : Int, queryDepths tr1 d2 = [] := by
    intro d2
    have h := (get_conversation_trace env now st s d2).1
    rw [hG] at h
    exact h
  have hn1 : netDepth tr1 = 0 := by
    have h := (get_conversation_trace env now st s 0).2
    rw [hG] at h
    exact h
  cases resG with
  | error e =>
    intro d hd
    have hd2 : d ∈ queryDepths (tr1 ++ [Event.logError, Event.release]) 1 := hd
    rw [queryDepths_append, hq1 1] at hd2
    simp [queryDepths] at hd2
  | ok sd0 =>
    have hNL := sessionData_chat_NoLock env sd0 msgs ak rc ur
    rcases hC : SessionData.chat env sd0 msgs ak rc ur with ⟨resC, sd1, tr2⟩
    rw [hC] at hNL
    simp only at hNL
    have hmain : ∀ suffix : List Event,
        (∀ d2 : Int, queryDepths suffix d2 = []) →
        ∀ d ∈ queryDepths ((tr1 ++ tr2) ++ suffix) 1, d = 1 := by
      intro suffix hsuf d hd
      rw [queryDepths_append, queryDepths_append, hq1 1, hn1, hsuf] at hd
      simp only [List.nil_append, List.append_nil] at hd
      have h10 : (1 : Int) + 0 = 1 := by ring
      rw [h10] at hd
      exact NoLock_queryDepths hNL 1 d hd
    cases resC with
    | ok r =>
      simp only [hC]
      intro d hd
      have hd2 : d ∈ queryDepths ((tr1 ++ tr2) ++ [Event.release]) 1 := hd
      exact hmain [Event.release] (fun d2 => rfl) d hd2
    | error e =>
      simp only [hC]
      intro d hd
      have hd2 : d ∈ queryDepths ((tr1 ++ tr2) ++ [Event.logError, Event.release]) 1 := hd
      exact hmain [Event.logError, Event.release] (fun d2 => rfl) d hd2

/-- Witness for C1 (amended): the concrete call of the counterexample
has its query depth 1 in the trace, and the theorem applied to it at
that member yields the equality. -/
theorem chat_engine_query_at_lock_depth_one_witness :
    1 ∈ queryDepths ((chat envBase 200 stBase "s"
        [{ role := "user", content := "q" }] "" ragBase false).2.2) 0 ∧
    (1 : Int) = 1 :=
  ⟨by decide,
   chat_engine_query_at_lock_depth_one envBase 200 stBase "s"
     [{ role := "user", content := "q" }] "" ragBase false 1 (by decide)⟩

/-! Claim C5. -/

/-- C5 counterexample: an unexpected error injected into a recycling
tick over the base store is logged but then RE-RAISED: the tick's
result is `Except.error "boom"`, not a normal return — the error does
escape `recycle_conversations` to its caller, contradicting "the tick
function returns normally". -/
theorem recycle_error_escapes_cex :
    recycle_conversations envBase 0 (some "boom") stBase =
      (Except.error "boom", stBase,
       [Event.acquire, Event.logError, Event.release]) ∧
    (Except.error "boom" : Except PyErr Unit) ≠ Except.ok () := by
  constructor
  · rfl
  · simp

/-- C5 (amended): a failure during a recycling tick is logged and then
RE-RAISED to the caller — the tick does not return normally — while the
`finally` does release the lock (the trace is depth-balanced). Moreover
the only possible tick failure is an injected unexpected one: the scan
and the removals themselves never raise, so a fault-free tick never
errors. -/
theorem recycle_error_logged_reraised (env : Env) (now : Int)
    (fault : Option PyErr) (st : Store) (e : PyErr)
    (he : (recycle_conversations env now fault st).1 = Except.error e) :
    fault = some e ∧
    Event.logError ∈ (recycle_conversations env now fault st).2.2 ∧
    netDepth (recycle_conversations env now fault st).2.2 = 0 := by
  cases fault with
  | some f =>
    have he2 : (Except.error f : Except PyErr Unit) = Except.error e := he
    cases he2
    refine ⟨rfl, ?_, ?_⟩
    · show Event.logError ∈ [Event.acquire, Event.logError, Event.release]
      simp
    · show netDepth [Event.acquire, Event.logError, Event.release] = 0
      decide
  | none =>
    exfalso
    have h := (recycle_none_reduce env now st).1
    rw [h] at he
    cases he

/-- Witness for C5 (amended): the injected fault "boom" over the base
store is reported back unchanged, with the log event in the trace and
the lock balance restored. -/
theorem recycle_error_logged_reraised_witness :
    (some "boom" : Option PyErr) = some "boom" ∧
    Event.logError ∈ (recycle_conversations envBase 0 (some "boom") stBase).2.2 ∧
    netDepth (recycle_conversations envBase 0 (some "boom") stBase).2.2 = 0 :=
  recycle_error_logged_reraised envBase 0 (some "boom") stBase "boom" rfl

end BiochatterServer
